import Mathlib

/-!
Shallow embedding of the `amazon-search-rank` rank tracker.

The repository contains three variants of the same pipeline:
* `src/amazon_search_rank.py` (the "orig" variant),
* `src/amazon_search_rank_refactored.py` (the "refact" variant),
* `src/main.py` (the BeautifulSoup / cloud-function variant, "bs4").

The core consumes a page snapshot (a list of candidate items with
identifier, position, size, visibility and raw signal attributes, plus a
list of sponsored-label hints and the main-column bounds) and emits rank
records.  Browser automation, network fetching and file I/O are external
collaborators and are not modelled; the functions below mirror, line by
line, the pure computations the Python code performs on the snapshot data.
-/

/-! ## String helpers (Python `str` operations used by the code) -/

/-- Python `s.lower()` restricted to ASCII case mapping (the marker tokens
the code compares against are ASCII or katakana, which `lower` leaves
unchanged). -/
def lowerStr (s : String) : String := ⟨s.data.map Char.toLower⟩

/-- Python `s.upper()` restricted to ASCII case mapping. -/
def upperStr (s : String) : String := ⟨s.data.map Char.toUpper⟩

/-- Python `s.strip()`: drop leading and trailing whitespace. -/
def stripStr (s : String) : String :=
  ⟨((s.data.dropWhile Char.isWhitespace).reverse.dropWhile Char.isWhitespace).reverse⟩

/-- Python `needle in hay` substring test. -/
def containsSub (hay needle : String) : Bool :=
  hay.data.tails.any (fun t => needle.data.isPrefixOf t)

/-- Identifier normalisation used everywhere in the code:
`asin.strip().upper()`. -/
def normAsin (s : String) : String := upperStr (stripStr s)

/-! ## Data model -/

/-- One raw candidate element matched by `RESULTS_SELECTOR`
(`div[data-asin]` / `li[data-asin]` under `.s-main-slot`), with the
attributes the Python code reads from the WebElement. -/
structure RawItem where
  asin : String
  x : Int
  y : Int
  width : Int
  height : Int
  visible : Bool
  /-- the `data-component-type` attribute (empty string when absent). -/
  componentType : String
  /-- for each nested `span[aria-label], .s-label-popover` badge, the string
  `badge.get_attribute("aria-label") or badge.text or ""`. -/
  badgeLabels : List String
  deriving Repr, DecidableEq

/-- One page snapshot handed to `process_page`: the candidate elements, the
sponsored-label cache (a list of `(y, text)` hints captured before any
scrolling), and the main-column horizontal bounds (either located from
`.s-main-slot` or the `(0, 2000)` fallback). -/
structure Page where
  items : List RawItem
  cache : List (Int × String)
  mainLeft : Int
  mainRight : Int
  deriving Repr

/-- One output row.  A `found` row has `page = some _` and `rank = some _`;
a `not_found` row (refactored variant only) has empty `itemType` and `none`
in the numeric fields, mirroring the empty CSV cells the code writes. -/
structure RankRecord where
  keyword : String
  asin : String
  itemType : String
  page : Option Nat
  rank : Option Nat
  organicRank : Option Nat
  deriving Repr, DecidableEq

/-! ## Placement classifier (`get_item_type`, identical in both Selenium
variants when the per-page label cache is supplied, as `process_page`
always does) -/

/-- Rule 1 of the cascade: the `data-component-type` attribute, lowercased,
contains `"sp-sponsored"` or `"sponsored"`. -/
def direct_signal (it : RawItem) : Bool :=
  containsSub (lowerStr it.componentType) "sp-sponsored" ||
    containsSub (lowerStr it.componentType) "sponsored"

/-- Rule 2 of the cascade: some nested badge's aria-label/text, lowercased,
contains `"sponsored"` or `"スポンサー"`. -/
def badge_signal (it : RawItem) : Bool :=
  it.badgeLabels.any (fun l =>
    containsSub (lowerStr l) "sponsored" || containsSub (lowerStr l) "スポンサー")

/-- Rule 3 of the cascade: some cached sponsored-label hint lies within
200px (`SPONSORED_PROXIMITY_THRESHOLD`) of the item's y-position. -/
def proximity_signal (itemY : Int) (cache : List (Int × String)) : Bool :=
  cache.any (fun lab => (lab.1 - itemY).natAbs < 200)

/-- Embedding of `get_item_type(element, sponsored_label_cache)`: the
ordered cascade — direct attribute, then badges, then label proximity,
defaulting to `"Organic"`. -/
def get_item_type (it : RawItem) (cache : List (Int × String)) : String :=
  if containsSub (lowerStr it.componentType) "sp-sponsored" ||
      containsSub (lowerStr it.componentType) "sponsored" then "Sponsored"
  else if it.badgeLabels.any (fun l =>
      containsSub (lowerStr l) "sponsored" || containsSub (lowerStr l) "スポンサー") then
    "Sponsored"
  else if cache.any (fun lab => (lab.1 - it.y).natAbs < 200) then "Sponsored"
  else "Organic"

/-! ## Item filter, sort and deduplication -/

/-- Filter loop of `process_page` in `amazon_search_rank.py` (lines
329-379): keep elements with a non-blank `data-asin` that are displayed and
at least 50px in both width and height; the kept dict carries the
normalised ASIN.  The main-column bounds computed just above (lines
319-327) are never consulted here. -/
def filter_orig (els : List RawItem) : List RawItem :=
  (els.filter (fun el =>
      !(stripStr el.asin == "") && el.visible && !(el.width < 50 || el.height < 50))).map
    (fun el => { el with asin := normAsin el.asin })

/-- Filter loop of `process_page` in `amazon_search_rank_refactored.py`
(lines 344-371): keep elements with a non-blank `data-asin` that are
displayed, horizontally inside `[mainLeft, mainRight]`, and at least 100px
wide (height is not checked in this variant). -/
def filter_refact (mainLeft mainRight : Int) (els : List RawItem) : List RawItem :=
  (els.filter (fun el =>
      !(stripStr el.asin == "") && el.visible &&
        !(el.x < mainLeft || el.x > mainRight) && !(el.width < 100))).map
    (fun el => { el with asin := normAsin el.asin })

/-- Python sort key `(y, x)` as a boolean order. -/
def leYX (a b : RawItem) : Bool :=
  a.y < b.y || (a.y == b.y && a.x ≤ b.x)

/-- Ordering predicate matching `leYX` propositionally. -/
def LeYX (a b : RawItem) : Prop :=
  a.y < b.y ∨ (a.y = b.y ∧ a.x ≤ b.x)

/-- Stable insertion step: place `a` before the first element it compares
`le` to, after every earlier element that compares `le` to it. -/
def insertLe {α : Type} (le : α → α → Bool) (a : α) : List α → List α
  | [] => [a]
  | b :: l => if le a b then a :: b :: l else b :: insertLe le a l

/-- Stable insertion sort.  Python's `list.sort` is a stable sort, and for
a total transitive boolean preorder every stable sort produces the same
output, so this is an exact model of it. -/
def insertionSort {α : Type} (le : α → α → Bool) : List α → List α
  | [] => []
  | a :: l => insertLe le a (insertionSort le l)

/-- `valid_items.sort(key=lambda k: (k['y'], k['x']))` — a stable sort by
ascending y, ties broken by ascending x. -/
def sortItems (l : List RawItem) : List RawItem := insertionSort leYX l

/-- Deduplication loop of `process_page` (both Selenium variants): an item
is dropped when some already-accepted item has the same ASIN and both
coordinates within 50px; accepted items are appended to `seen` as
`(asin, y, x)`. -/
def dedupLoop : List RawItem → List (String × Int × Int) → List RawItem
  | [], _ => []
  | it :: rest, seen =>
      if seen.any (fun s =>
          s.1 == it.asin && (s.2.1 - it.y).natAbs < 50 && (s.2.2 - it.x).natAbs < 50) then
        dedupLoop rest seen
      else
        it :: dedupLoop rest (seen ++ [(it.asin, it.y, it.x)])

/-- `unique_items` for one page in the original variant: filter, sort,
deduplicate. -/
def uniqueItemsOrig (p : Page) : List RawItem :=
  dedupLoop (sortItems (filter_orig p.items)) []

/-- `unique_items` for one page in the refactored variant. -/
def uniqueItemsRefact (p : Page) : List RawItem :=
  dedupLoop (sortItems (filter_refact p.mainLeft p.mainRight p.items)) []

/-! ## Rank accumulator (`process_page` result loop, both Selenium
variants: lines 409-444 orig, lines 404-440 refactored) -/

/-- Result loop over `unique_items`: walk the items with the per-page
position counter `pos` and organic counter `org`, classify each item, and
emit a record for every item whose normalised ASIN is in `targets`.
`offset` is the cumulative offset carried in from prior pages; both the
overall rank and the organic rank are based on this same single offset. -/
def pageLoop (keyword : String) (page : Nat) (targets : List String)
    (cache : List (Int × String)) (offset : Nat) :
    List RawItem → Nat → Nat → List RankRecord
  | [], _, _ => []
  | it :: rest, pos, org =>
      let pos' := pos + 1
      let t := get_item_type it cache
      let org' := if t == "Organic" then org + 1 else org
      (if targets.contains it.asin then
        [{ keyword := keyword, asin := it.asin, itemType := t, page := some page,
           rank := some (offset + pos'),
           organicRank := if t == "Organic" then some (offset + org') else none }]
      else []) ++ pageLoop keyword page targets cache offset rest pos' org'

/-- Final value of the per-page `position_counter`, which the loop
increments once for every unique item. -/
def pagePositionCounter : List RawItem → Nat → Nat
  | [], pos => pos
  | _ :: rest, pos => pagePositionCounter rest (pos + 1)

/-- Number of items of `l` the classifier marks `"Organic"` against the
given label cache (the per-page organic counter over a prefix). -/
def organicCount (cache : List (Int × String)) (l : List RawItem) : Nat :=
  l.countP (fun it => get_item_type it cache == "Organic")

/-- `process_page` of the refactored variant: filter (using the page's
main-column bounds), sort, deduplicate, run the result loop, and return
the records together with `new_offset = cumulative_offset +
position_counter`. -/
def process_page_refact (keyword : String) (page : Nat) (targets : List String)
    (p : Page) (offset : Nat) : List RankRecord × Nat :=
  let unique := uniqueItemsRefact p
  (pageLoop keyword page targets p.cache offset unique 0 0,
    offset + pagePositionCounter unique 0)

set_option linter.unusedVariables false in
/-- `process_page` of the original variant: identical result loop, but the
filter ignores the main-column bounds (they are computed at lines 319-327
and never read afterwards — the parameters are threaded here to mirror
that), and the function returns `items_on_page` instead of the new
offset. -/
def process_page_orig (keyword : String) (page : Nat) (targets : List String)
    (items : List RawItem) (cache : List (Int × String))
    (mainLeft mainRight : Int) (offset : Nat) : List RankRecord × Nat :=
  let unique := dedupLoop (sortItems (filter_orig items)) []
  (pageLoop keyword page targets cache offset unique 0 0, pagePositionCounter unique 0)

/-! ## Scan controller -/

/-- Python set-insert of the asins of freshly emitted records into the
`found_asins` set (modelled as a duplicate-free list in insertion order). -/
def updateFound (found : List String) (recs : List RankRecord) : List String :=
  recs.foldl (fun f r => if f.contains r.asin then f else f ++ [r.asin]) found

/-- Python `found_asins == target_asins` (set equality by extension). -/
def setEqStr (a b : List String) : Bool :=
  a.all (fun x => b.contains x) && b.all (fun x => a.contains x)

/-- Result of scanning the pages of one keyword: the emitted records, the
`found_asins` set, and the final cumulative offset. -/
structure ScanState where
  records : List RankRecord
  found : List String
  offset : Nat
  deriving Repr

/-- Page loop of `search_keyword` (refactored variant, lines 487-519):
process each available page in order, accumulate records and the found
set, and stop early when the found set equals the target set.  The input
page list is the sequence of result snapshots the external collaborator
can supply before the page limit / end of pagination. -/
def scanPages (keyword : String) (targets : List String) :
    List Page → Nat → Nat → List String → ScanState
  | [], _, offset, found => ⟨[], found, offset⟩
  | p :: rest, pageNo, offset, found =>
      let pr := process_page_refact keyword pageNo targets p offset
      let found' := updateFound found pr.1
      if setEqStr found' targets then ⟨pr.1, found', pr.2⟩
      else
        let s := scanPages keyword targets rest (pageNo + 1) pr.2 found'
        ⟨pr.1 ++ s.records, s.found, s.offset⟩

/-- Empty row appended for a target never found (refactored variant, lines
521-532). -/
def notFoundRecord (keyword asin : String) : RankRecord :=
  { keyword := keyword, asin := asin, itemType := "", page := none,
    rank := none, organicRank := none }

/-- Python `sorted(...)` on strings: lexicographic comparison. -/
def strLe (a b : String) : Bool := !(decide (b < a))

/-- `search_keyword` of the refactored variant: scan the pages, then for
every target not in `found_asins` (in sorted order) append one empty
`not_found` row. -/
def search_keyword (keyword : String) (targets : List String)
    (pages : List Page) : List RankRecord :=
  let s := scanPages keyword targets pages 1 0 []
  s.records ++
    (insertionSort strLe (targets.filter (fun a => !(s.found.contains a)))).map
      (notFoundRecord keyword)

/-- Per-keyword page loop of `main` in the original variant (lines
500-529): process the available pages sequentially, accumulating
`cumulative_offset += items_count`; no early exit and no `not_found`
records are ever produced. -/
def scanOrig (keyword : String) (targets : List String) :
    List Page → Nat → Nat → List RankRecord × Nat
  | [], _, offset => ([], offset)
  | p :: rest, pageNo, offset =>
      let pr := process_page_orig keyword pageNo targets p.items p.cache
        p.mainLeft p.mainRight offset
      let s := scanOrig keyword targets rest (pageNo + 1) (offset + pr.2)
      (pr.1 ++ s.1, s.2)

/-! ## Input loading (`load_targets`) and run start-up -/

/-- One CSV row as `csv.DictReader` hands it to `load_targets`; a missing
cell and an empty cell both reach the code as `""` via the `or` defaults
(`ACTIVE` additionally falls back to `"yes"`). -/
structure CsvRow where
  asin : String
  keyword : String
  active : String
  deriving Repr

/-- Validity test for one row, mirroring lines 67-75 of
`amazon_search_rank.py`: the row contributes `(keyword, asin)` unless it
is inactive or has a blank ASIN or keyword. -/
def parseRow (r : CsvRow) : Option (String × String) :=
  let asin := upperStr (stripStr r.asin)
  let keyword := stripStr r.keyword
  let activeRaw := if r.active == "" then "yes" else r.active
  let active := lowerStr (stripStr activeRaw)
  if !(active == "yes" || active == "y" || active == "true" || active == "1") then none
  else if asin == "" || keyword == "" then none
  else some (keyword, asin)

/-- `grouped.setdefault(keyword, set()).add(asin)` over an
insertion-ordered association list with duplicate-free ASIN lists. -/
def insertTarget (kw a : String) :
    List (String × List String) → List (String × List String)
  | [] => [(kw, [a])]
  | (k, s) :: rest =>
      if k == kw then (k, if s.contains a then s else s ++ [a]) :: rest
      else (k, s) :: insertTarget kw a rest

/-- `load_targets`: group the valid rows; raise (`.error`) when no valid
target remains. -/
def load_targets (rows : List CsvRow) : Except String (List (String × List String)) :=
  let grouped := rows.foldl (fun acc r =>
    match parseRow r with
    | none => acc
    | some (kw, a) => insertTarget kw a acc) []
  if grouped.isEmpty then Except.error "No valid targets in input.csv"
  else Except.ok grouped

/-- Start-up and scan of `main` in the original variant: `load_targets` is
called first and any exception makes the program `sys.exit(1)` before the
driver is created, any page is fetched or any output is written; otherwise
every keyword is scanned against the pages the collaborator supplies.
`Except.error 1` is the non-zero exit signal. -/
def main_orig (rows : List CsvRow) (pagesFor : String → List Page) :
    Except Nat (List RankRecord) :=
  match load_targets rows with
  | Except.error _ => Except.error 1
  | Except.ok targets =>
      Except.ok (targets.foldl (fun acc t =>
        acc ++ (scanOrig t.1 t.2 (pagesFor t.1) 1 0).1) [])

/-! ## BeautifulSoup variant (`src/main.py`, `parse_page_bs4`) -/

/-- One `div[data-component-type='s-search-result']` element as the bs4
code reads it: the `data-asin` attribute (empty string when absent), the
full concatenated text content `item.get_text(separator=" ")`, and the
`aria-label` values of the nested `span[aria-label]` elements in document
order. -/
structure BsItem where
  dataAsin : String
  textContent : String
  ariaLabels : List String
  deriving Repr, DecidableEq

/-- Sponsorship test of `parse_page_bs4` (lines 89-97): the marker appears
in the whole text content (case-sensitively), or some nested span's
aria-label contains `"sponsored"` case-insensitively or `"スポンサー"`. -/
def bs4_sponsored (it : BsItem) : Bool :=
  containsSub it.textContent "スポンサー" || containsSub it.textContent "Sponsored" ||
    it.ariaLabels.any (fun l =>
      containsSub (lowerStr l) "sponsored" || containsSub l "スポンサー")

/-- Placement string the bs4 variant assigns. -/
def bs4ItemType (it : BsItem) : String :=
  if bs4_sponsored it then "Sponsored Product" else "Organic"

/-- Item loop of `parse_page_bs4`: skip blank-asin items without counting,
count every other item, classify it, and emit a record for target ASINs;
returns the records and the final `position_counter`.  No visibility,
size, position or duplicate filtering happens in this variant. -/
def bs4Loop (keyword : String) (pageNum : Nat) (targets : List String)
    (offset : Nat) : List BsItem → Nat → Nat → List RankRecord × Nat
  | [], pos, _ => ([], pos)
  | it :: rest, pos, org =>
      if stripStr it.dataAsin == "" then
        bs4Loop keyword pageNum targets offset rest pos org
      else
        let pos' := pos + 1
        let t := bs4ItemType it
        let org' := if t == "Organic" then org + 1 else org
        let asin := normAsin it.dataAsin
        let r := bs4Loop keyword pageNum targets offset rest pos' org'
        ((if targets.contains asin then
          [{ keyword := keyword, asin := asin, itemType := t, page := some pageNum,
             rank := some (offset + pos'),
             organicRank := if t == "Organic" then some (offset + org') else none }]
        else []) ++ r.1, r.2)

/-- `parse_page_bs4(html, page_num, target_asins, keyword, offset)` on the
parsed item list: returns `(results, position_counter)`. -/
def parse_page_bs4 (keyword : String) (pageNum : Nat) (targets : List String)
    (offset : Nat) (items : List BsItem) : List RankRecord × Nat :=
  bs4Loop keyword pageNum targets offset items 0 0

/-- Strict ordering of two records' cumulative ranks: whenever both carry
an overall rank the first is smaller, and likewise for the organic rank. -/
def RecOrd (r r' : RankRecord) : Prop :=
  (∀ ka kb, r.rank = some ka → r'.rank = some kb → ka < kb) ∧
  (∀ va vb, r.organicRank = some va → r'.organicRank = some vb → va < vb)

/-! ## Concrete page snapshots used to instantiate the claims -/

/-- Plain organic-looking candidate: visible, 300x300, at x=100, with the
ordinary `s-search-result` component type and no badges. -/
def plainItem (asin : String) (y : Int) : RawItem :=
  { asin := asin, x := 100, y := y, width := 300, height := 300, visible := true,
    componentType := "s-search-result", badgeLabels := [] }

/-- Candidate carrying the explicit sponsored component-type attribute. -/
def sponsItem (asin : String) (y : Int) : RawItem :=
  { plainItem asin y with componentType := "sp-sponsored-result" }

/-- Page with no sponsored-label hints and the fallback column bounds. -/
def plainPage (items : List RawItem) : Page :=
  { items := items, cache := [], mainLeft := 0, mainRight := 2000 }

/-- Scenario C candidate: no direct or badge signal, y = 420. -/
def scenCItem : RawItem := plainItem "B0SCENC001" 420

/-- Page 1 of the C1 counterexample scan: one sponsored item followed by
one organic item, no target on the page. -/
def c1page1 : Page := plainPage [sponsItem "B0SPONS001" 100, plainItem "B0ORGAN001" 600]

/-- Page 2 of the C1 counterexample scan: the target as the first (and
only) item, organic. -/
def c1page2 : Page := plainPage [plainItem "B0TARGET01" 100]

/-- Record the C1 counterexample scan emits for the target on page 2. -/
def c1rec : RankRecord :=
  { keyword := "kw", asin := "B0TARGET01", itemType := "Organic", page := some 2,
    rank := some 3, organicRank := some 3 }

/-- Page on which the same target ASIN appears at two positions far enough
apart (Δy = 400 ≥ 50) to both survive deduplication. -/
def c5page : Page := plainPage [plainItem "B0DUPL0001" 100, plainItem "B0DUPL0001" 500]

/-- Filler page used to show the early exit skips the remaining pages. -/
def c5extra : Page := plainPage [plainItem "B0OTHER001" 100]

/-- Visible 200x1 candidate: passes the refactored filter (width ≥ 100)
although its height is below every minimum-size threshold. -/
def flatItem : RawItem :=
  { asin := "B0FLAT0001", x := 100, y := 10, width := 200, height := 1, visible := true,
    componentType := "s-search-result", badgeLabels := [] }

/-- Visible 60x60 candidate used to instantiate the original filter. -/
def okItem : RawItem :=
  { asin := "B0OKAY0001", x := 10, y := 10, width := 60, height := 60, visible := true,
    componentType := "s-search-result", badgeLabels := [] }

/-- Scenario E, first raw candidate: identifier B009 at (100, 100). -/
def dupA : RawItem :=
  { asin := "B009", x := 100, y := 100, width := 300, height := 300, visible := true,
    componentType := "s-search-result", badgeLabels := [] }

/-- Scenario E, second raw candidate: identifier B009 at (105, 102),
within the 50px tolerance of `dupA` in both axes. -/
def dupB : RawItem :=
  { asin := "B009", x := 102, y := 105, width := 300, height := 300, visible := true,
    componentType := "s-search-result", badgeLabels := [] }

/-- Scenario D page: ten organic items, none of them the target. -/
def scenDPage : Page := plainPage
  [plainItem "B0AAAA0001" 100, plainItem "B0AAAA0002" 200, plainItem "B0AAAA0003" 300,
   plainItem "B0AAAA0004" 400, plainItem "B0AAAA0005" 500, plainItem "B0AAAA0006" 600,
   plainItem "B0AAAA0007" 700, plainItem "B0AAAA0008" 800, plainItem "B0AAAA0009" 900,
   plainItem "B0AAAA0010" 1000]

/-- Three-page Scenario D scan input. -/
def pagesD : List Page := [scenDPage, scenDPage, scenDPage]

/-- Single page without the target, for the original variant's scan. -/
def c4origPage : Page := plainPage [plainItem "B0ORGA0001" 100]

/-- Invalid input rows: inactive, blank ASIN, blank keyword. -/
def c8Rows : List CsvRow :=
  [{ asin := "B0GOOD0001", keyword := "widget", active := "no" },
   { asin := "   ", keyword := "widget", active := "yes" },
   { asin := "B0GOOD0002", keyword := "", active := "yes" }]

/-- Modelled from the claim's words (C10): `'Sponsored'` or `'スポンサー'`
occurs in the concatenated text content or in some nested span's
aria-label, both read case-sensitively as written. -/
def c10ClaimCond (it : BsItem) : Bool :=
  containsSub it.textContent "Sponsored" || containsSub it.textContent "スポンサー" ||
    it.ariaLabels.any (fun l => containsSub l "Sponsored" || containsSub l "スポンサー")

/-- Item whose only signal is an upper-cased aria-label. -/
def upperAriaItem : BsItem :=
  { dataAsin := "B0UPPER001", textContent := "Acme widget premium", ariaLabels := ["SPONSORED"] }

/-- Item whose product title merely contains the marker word. -/
def titleMarkerItem : BsItem :=
  { dataAsin := "B0TITLE001", textContent := "Sponsored goods storage box sturdy",
    ariaLabels := [] }

/-! ## Theorems -/

/-- **C9**: in the `amazon_search_rank.py` variant the output of
`process_page` is independent of the main-column horizontal bounds:
for any two bounds values and the same page snapshot, the filtered,
deduplicated item list and the emitted rank records (and items count) are
identical — the sidebar/column filter rule is effectively disabled. -/
theorem c9_bounds_unused (keyword : String) (page : Nat) (targets : List String)
    (items : List RawItem) (cache : List (Int × String))
    (l r l' r' : Int) (offset : Nat) :
    uniqueItemsOrig ⟨items, cache, l, r⟩ = uniqueItemsOrig ⟨items, cache, l', r'⟩ ∧
    process_page_orig keyword page targets items cache l r offset =
      process_page_orig keyword page targets items cache l' r' offset :=
  ⟨rfl, rfl⟩

/-- **C2**: the placement classifier is an ordered first-match-wins
cascade: the direct component-type signal classifies sponsored with no
further checks (independently of the badges and of the hint cache), then
the badge signal, then the 200px proximity fallback, and otherwise the
item is organic; in particular (Scenario C) a hint at y=400 with an item
at y=420 and no direct/badge signal is classified sponsored. -/
theorem c2_classifier_cascade :
    (∀ (it : RawItem) (cache : List (Int × String)), get_item_type it cache =
      if direct_signal it then "Sponsored"
      else if badge_signal it then "Sponsored"
      else if proximity_signal it.y cache then "Sponsored"
      else "Organic") ∧
    (∀ (it : RawItem) (cache : List (Int × String)) (labels : List String),
      direct_signal it = true →
      get_item_type { it with badgeLabels := labels } cache = "Sponsored") ∧
    (∀ (it : RawItem) (cache : List (Int × String)),
      direct_signal it = false → badge_signal it = true →
      get_item_type it cache = "Sponsored") ∧
    (∀ (it : RawItem) (cache : List (Int × String)),
      direct_signal it = false → badge_signal it = false →
      proximity_signal it.y cache = true → get_item_type it cache = "Sponsored") ∧
    (∀ (it : RawItem) (cache : List (Int × String)),
      direct_signal it = false → badge_signal it = false →
      proximity_signal it.y cache = false → get_item_type it cache = "Organic") ∧
    get_item_type scenCItem [((400 : Int), "スポンサー")] = "Sponsored" := by
  refine ⟨fun it cache => rfl, ?_, ?_, ?_, ?_, rfl⟩
  · intro it cache labels h
    simp only [get_item_type, direct_signal] at h ⊢
    rw [if_pos h]
  · intro it cache h1 h2
    simp only [get_item_type, direct_signal, badge_signal] at h1 h2 ⊢
    rw [if_neg (by simp [h1]), if_pos h2]
  · intro it cache h1 h2 h3
    simp only [get_item_type, direct_signal, badge_signal, proximity_signal] at h1 h2 h3 ⊢
    rw [if_neg (by simp [h1]), if_neg (by simp [h2]), if_pos h3]
  · intro it cache h1 h2 h3
    simp only [get_item_type, direct_signal, badge_signal, proximity_signal] at h1 h2 h3 ⊢
    rw [if_neg (by simp [h1]), if_neg (by simp [h2]), if_neg (by simp [h3])]

/-- Witness for C2: the proximity-fallback conjunct applied to the
Scenario C snapshot, with the rule-1 and rule-2 failures and the rule-3
hit discharged by computation. -/
theorem c2_classifier_cascade_witness :
    get_item_type scenCItem [((400 : Int), "Sponsored")] = "Sponsored" :=
  c2_classifier_cascade.2.2.2.1 scenCItem [((400 : Int), "Sponsored")]
    (by decide) (by decide) (by decide)

/-- Helper: when no row is valid, the grouping fold leaves the accumulator
unchanged. -/
theorem load_targets_fold_fixed (rows : List CsvRow)
    (h : ∀ r ∈ rows, parseRow r = none) (acc : List (String × List String)) :
    rows.foldl (fun acc r =>
      match parseRow r with
      | none => acc
      | some (kw, a) => insertTarget kw a acc) acc = acc := by
  induction rows generalizing acc with
  | nil => rfl
  | cons r rest ih =>
      have hr : parseRow r = none := h r (by simp)
      simp only [List.foldl_cons, hr]
      exact ih (fun x hx => h x (by simp [hx])) acc

/-- **C8**: if the target list is empty after filtering (no valid active
row with both identifier and keyword), `load_targets` raises and the run
aborts with exit code 1 before any scanning: the result is `error 1`
whatever pages the collaborator could have supplied, so no page is
consumed and no records are produced. -/
theorem c8_empty_targets_abort (rows : List CsvRow)
    (h : ∀ r ∈ rows, parseRow r = none) :
    load_targets rows = Except.error "No valid targets in input.csv" ∧
    ∀ pagesFor : String → List Page, main_orig rows pagesFor = Except.error 1 := by
  have hl : load_targets rows = Except.error "No valid targets in input.csv" := by
    unfold load_targets
    rw [load_targets_fold_fixed rows h]
    rfl
  exact ⟨hl, fun pagesFor => by unfold main_orig; rw [hl]⟩

/-- Witness for C8: three concrete invalid rows (inactive, blank ASIN,
blank keyword) abort the run with exit code 1 even though pages would have
been available. -/
theorem c8_empty_targets_abort_witness :
    main_orig c8Rows (fun _ => [scenDPage]) = Except.error 1 :=
  (c8_empty_targets_abort c8Rows (by decide)).2 (fun _ => [scenDPage])

/-- **C10 counterexample**: an item whose only signal is the upper-cased
aria-label `"SPONSORED"` is classified sponsored by the bs4 variant,
although neither `'Sponsored'` nor `'スポンサー'` occurs in its text
content or (case-sensitively) in its aria-label — the claim's "exactly
when" condition evaluates to false on it. -/
theorem c10_counterexample :
    bs4ItemType upperAriaItem = "Sponsored Product" ∧
    c10ClaimCond upperAriaItem = false :=
  ⟨rfl, rfl⟩

/-- Helper: the final bs4 `position_counter` counts every non-blank-asin
item, starting from the running counter. -/
theorem bs4Loop_counter (keyword : String) (pageNum : Nat) (targets : List String)
    (offset : Nat) (items : List BsItem) : ∀ (pos org : Nat),
    (bs4Loop keyword pageNum targets offset items pos org).2 =
      pos + items.countP (fun it => !(stripStr it.dataAsin == "")) := by
  induction items with
  | nil => intro pos org; simp [bs4Loop]
  | cons it rest ih =>
      intro pos org
      by_cases h : stripStr it.dataAsin == ""
      · simp [bs4Loop, h, List.countP_cons, ih]
      · simp only [bs4Loop, Bool.not_eq_true] at h ⊢
        rw [if_neg (by simp [h])]
        simp [List.countP_cons, h, ih]
        omega

/-- **C10 (amended)**: in the bs4 variant an item is classified sponsored
exactly when `'Sponsored'` or `'スポンサー'` occurs (case-sensitively) in
its concatenated text content, or some nested span's aria-label contains
`"sponsored"` case-insensitively or `"スポンサー"`; consequently an item
whose product title merely contains the marker word is classified
sponsored, and the variant applies no visibility, size, position or
duplicate filtering before counting: every non-blank-asin item is counted,
duplicates included. -/
theorem c10_bs4_classifier :
    (∀ it : BsItem, (bs4ItemType it == "Sponsored Product") =
      (containsSub it.textContent "スポンサー" || containsSub it.textContent "Sponsored" ||
        it.ariaLabels.any (fun l =>
          containsSub (lowerStr l) "sponsored" || containsSub l "スポンサー"))) ∧
    (∀ (keyword : String) (pageNum : Nat) (targets : List String) (offset : Nat)
        (items : List BsItem),
      (parse_page_bs4 keyword pageNum targets offset items).2 =
        items.countP (fun it => !(stripStr it.dataAsin == ""))) ∧
    bs4ItemType titleMarkerItem = "Sponsored Product" ∧
    (parse_page_bs4 "kw" 1 ["B0TITLE001"] 0 [titleMarkerItem, titleMarkerItem]).1.length = 2 := by
  refine ⟨?_, ?_, rfl, rfl⟩
  · intro it
    cases h : bs4_sponsored it with
    | true =>
        rw [show (containsSub it.textContent "スポンサー" || containsSub it.textContent "Sponsored" ||
          it.ariaLabels.any (fun l =>
            containsSub (lowerStr l) "sponsored" || containsSub l "スポンサー")) = bs4_sponsored it
          from rfl, h]
        simp [bs4ItemType, h]
    | false =>
        rw [show (containsSub it.textContent "スポンサー" || containsSub it.textContent "Sponsored" ||
          it.ariaLabels.any (fun l =>
            containsSub (lowerStr l) "sponsored" || containsSub l "スポンサー")) = bs4_sponsored it
          from rfl, h]
        simp [bs4ItemType, h]
  · intro keyword pageNum targets offset items
    simpa [parse_page_bs4] using bs4Loop_counter keyword pageNum targets offset items 0 0

/-- Helper: normalisation of a non-blank identifier is non-empty. -/
theorem normAsin_ne_empty {s : String} (h : ¬ stripStr s = "") : normAsin s ≠ "" := by
  intro hc
  apply h
  have hdata : (stripStr s).data.map Char.toUpper = [] := congrArg String.data hc
  exact String.ext (List.map_eq_nil_iff.mp hdata)

/-- Helper: the `(y, x)` key order is transitive. -/
theorem leYX_trans (a b c : RawItem) :
    leYX a b = true → leYX b c = true → leYX a c = true := by
  simp only [leYX, Bool.or_eq_true, Bool.and_eq_true, decide_eq_true_eq, beq_iff_eq]
  omega

/-- Helper: the `(y, x)` key order is total. -/
theorem leYX_total (a b : RawItem) : (leYX a b || leYX b a) = true := by
  simp only [leYX, Bool.or_eq_true, Bool.and_eq_true, decide_eq_true_eq, beq_iff_eq]
  omega

/-- Helper: membership is preserved by stable insertion. -/
theorem mem_insertLe {α : Type} {le : α → α → Bool} {x a : α} :
    ∀ {l : List α}, x ∈ insertLe le a l ↔ x = a ∨ x ∈ l := by
  intro l
  induction l with
  | nil => simp [insertLe]
  | cons b t ih =>
      by_cases h : le a b = true
      · simp [insertLe, h]
      · simp only [insertLe, if_neg h, List.mem_cons, ih]
        tauto

/-- Helper: stable insertion permutes the consed list. -/
theorem insertLe_perm {α : Type} (le : α → α → Bool) (a : α) :
    ∀ l : List α, (insertLe le a l).Perm (a :: l) := by
  intro l
  induction l with
  | nil => exact List.Perm.refl _
  | cons b t ih =>
      by_cases h : le a b = true
      · rw [insertLe, if_pos h]
      · rw [insertLe, if_neg h]
        exact (ih.cons b).trans (List.Perm.swap a b t)

/-- Helper: the insertion sort permutes its input. -/
theorem insertionSort_perm {α : Type} (le : α → α → Bool) :
    ∀ l : List α, (insertionSort le l).Perm l := by
  intro l
  induction l with
  | nil => exact List.Perm.refl _
  | cons a t ih => exact (insertLe_perm le a _).trans (ih.cons a)

/-- Helper: inserting into a pairwise-ordered list keeps it ordered, for a
total transitive boolean preorder. -/
theorem insertLe_pairwise {α : Type} {le : α → α → Bool}
    (htrans : ∀ a b c, le a b = true → le b c = true → le a c = true)
    (htotal : ∀ a b, (le a b || le b a) = true) (a : α) :
    ∀ l, List.Pairwise (fun x y => le x y = true) l →
      List.Pairwise (fun x y => le x y = true) (insertLe le a l) := by
  intro l
  induction l with
  | nil => intro _; simp [insertLe]
  | cons b t ih =>
      intro hp
      rcases List.pairwise_cons.mp hp with ⟨hb, ht⟩
      by_cases h : le a b = true
      · rw [insertLe, if_pos h]
        refine List.Pairwise.cons ?_ hp
        intro x hx
        rcases List.mem_cons.mp hx with rfl | hxt
        · exact h
        · exact htrans a b x h (hb x hxt)
      · rw [insertLe, if_neg h]
        refine List.Pairwise.cons ?_ (ih ht)
        intro x hx
        rcases mem_insertLe.mp hx with hxa | hxt
        · rw [hxa]
          have hba := htotal a b
          simpa [h] using hba
        · exact hb x hxt

/-- Helper: the insertion sort output is pairwise ordered. -/
theorem insertionSort_pairwise {α : Type} {le : α → α → Bool}
    (htrans : ∀ a b c, le a b = true → le b c = true → le a c = true)
    (htotal : ∀ a b, (le a b || le b a) = true) :
    ∀ l, List.Pairwise (fun x y => le x y = true) (insertionSort le l) := by
  intro l
  induction l with
  | nil => simp [insertionSort]
  | cons a t ih => exact insertLe_pairwise htrans htotal a _ ih

/-- Helper: the sorted item list is pairwise in `(y, x)` order. -/
theorem sortItems_pairwise (l : List RawItem) : List.Pairwise LeYX (sortItems l) := by
  refine (insertionSort_pairwise leYX_trans leYX_total l).imp ?_
  intro a b hab
  simpa only [leYX, LeYX, Bool.or_eq_true, Bool.and_eq_true, decide_eq_true_eq,
    beq_iff_eq] using hab

/-- Helper: deduplication returns an order-preserving sublist. -/
theorem dedupLoop_sublist (l : List RawItem) :
    ∀ seen, (dedupLoop l seen).Sublist l := by
  induction l with
  | nil => intro seen; simp [dedupLoop]
  | cons it rest ih =>
      intro seen
      by_cases h : (seen.any fun s =>
          s.1 == it.asin && (s.2.1 - it.y).natAbs < 50 && (s.2.2 - it.x).natAbs < 50) = true
      · rw [dedupLoop, if_pos h]
        exact (ih seen).cons it
      · rw [dedupLoop, if_neg h]
        exact (ih _).cons₂ it

/-- Helper: membership in the original variant's filtered list. -/
theorem mem_filter_orig {it : RawItem} {els : List RawItem} (h : it ∈ filter_orig els) :
    ∃ el ∈ els, ¬ stripStr el.asin = "" ∧ el.visible = true ∧
      50 ≤ el.width ∧ 50 ≤ el.height ∧ it = { el with asin := normAsin el.asin } := by
  unfold filter_orig at h
  rcases List.mem_map.mp h with ⟨el, hel, heq⟩
  rcases List.mem_filter.mp hel with ⟨hmem, hpred⟩
  simp only [Bool.and_eq_true, Bool.not_eq_true', Bool.or_eq_false_iff, beq_eq_false_iff_ne,
    ne_eq, decide_eq_false_iff_not, not_lt] at hpred
  exact ⟨el, hmem, hpred.1.1, hpred.1.2, hpred.2.1, hpred.2.2, heq.symm⟩

/-- Helper: membership in the refactored variant's filtered list. -/
theorem mem_filter_refact {it : RawItem} {ml mr : Int} {els : List RawItem}
    (h : it ∈ filter_refact ml mr els) :
    ∃ el ∈ els, ¬ stripStr el.asin = "" ∧ el.visible = true ∧
      ml ≤ el.x ∧ el.x ≤ mr ∧ 100 ≤ el.width ∧
      it = { el with asin := normAsin el.asin } := by
  unfold filter_refact at h
  rcases List.mem_map.mp h with ⟨el, hel, heq⟩
  rcases List.mem_filter.mp hel with ⟨hmem, hpred⟩
  simp only [Bool.and_eq_true, Bool.not_eq_true', Bool.or_eq_false_iff, beq_eq_false_iff_ne,
    ne_eq, decide_eq_false_iff_not, not_lt] at hpred
  exact ⟨el, hmem, hpred.1.1.1, hpred.1.1.2, hpred.1.2.1, hpred.1.2.2, hpred.2, heq.symm⟩

/-- **C6 counterexample**: a visible 200x1 candidate with a non-blank
identifier survives the refactored Item Filter although its height (1px)
is below the minimum-size threshold (spec range 50-100px) — the filter of
that variant never checks height. -/
theorem c6_counterexample :
    filter_refact 0 2000 [flatItem] = [flatItem] ∧
    flatItem.height = 1 ∧ ((1 : Int) < 50 ∧ (1 : Int) < 100) :=
  ⟨rfl, rfl, by decide⟩

/-- **C6 (amended)**: every survivor of the original variant's Item Filter
has a non-empty identifier coming from a non-blank raw identifier, is
visible, and has both width and height at least 50px; in the refactored
variant a survivor is visible, non-blank, horizontally inside the main
column and at least 100px wide, but its height is unchecked; in both
variants the surviving list, once sorted, is in ascending `(y, x)` order,
ties on y broken by x, and the deduplicated list keeps that order. -/
theorem c6_filter_properties :
    (∀ (els : List RawItem) (it : RawItem), it ∈ filter_orig els →
      it.asin ≠ "" ∧ it.visible = true ∧ 50 ≤ it.width ∧ 50 ≤ it.height) ∧
    (∀ (ml mr : Int) (els : List RawItem) (it : RawItem), it ∈ filter_refact ml mr els →
      it.asin ≠ "" ∧ it.visible = true ∧ ml ≤ it.x ∧ it.x ≤ mr ∧ 100 ≤ it.width) ∧
    (∀ els : List RawItem, List.Pairwise LeYX (sortItems (filter_orig els))) ∧
    (∀ (ml mr : Int) (els : List RawItem),
      List.Pairwise LeYX (sortItems (filter_refact ml mr els))) ∧
    (∀ p : Page, List.Pairwise LeYX (uniqueItemsOrig p)) ∧
    (∀ p : Page, List.Pairwise LeYX (uniqueItemsRefact p)) := by
  refine ⟨?_, ?_, fun els => sortItems_pairwise _, fun ml mr els => sortItems_pairwise _,
    fun p => (sortItems_pairwise _).sublist (dedupLoop_sublist _ _),
    fun p => (sortItems_pairwise _).sublist (dedupLoop_sublist _ _)⟩
  · intro els it h
    rcases mem_filter_orig h with ⟨el, _, hblank, hvis, hw, hh, heq⟩
    subst heq
    exact ⟨normAsin_ne_empty hblank, hvis, hw, hh⟩
  · intro ml mr els it h
    rcases mem_filter_refact h with ⟨el, _, hblank, hvis, hxl, hxr, hw, heq⟩
    subst heq
    exact ⟨normAsin_ne_empty hblank, hvis, hxl, hxr, hw⟩

/-- Witness for C6: the original-variant filter conjunct applied to a
concrete visible 60x60 item that survives the filter. -/
theorem c6_filter_properties_witness :
    okItem.asin ≠ "" ∧ okItem.visible = true ∧ 50 ≤ okItem.width ∧ 50 ≤ okItem.height :=
  c6_filter_properties.1 [okItem] okItem (by decide)

/-- Helper: every item accepted by the dedup loop fails the
within-tolerance test against every entry of the incoming `seen` list. -/
theorem dedupLoop_far_from_seen (l : List RawItem) :
    ∀ (seen : List (String × Int × Int)), ∀ s ∈ seen, ∀ b ∈ dedupLoop l seen,
      ¬(s.1 = b.asin ∧ (s.2.1 - b.y).natAbs < 50 ∧ (s.2.2 - b.x).natAbs < 50) := by
  induction l with
  | nil => intro seen s _ b hb; simp [dedupLoop] at hb
  | cons it rest ih =>
      intro seen s hs b hb
      by_cases h : (seen.any fun t =>
          t.1 == it.asin && (t.2.1 - it.y).natAbs < 50 && (t.2.2 - it.x).natAbs < 50) = true
      · rw [dedupLoop, if_pos h] at hb
        exact ih seen s hs b hb
      · rw [dedupLoop, if_neg h] at hb
        rcases List.mem_cons.mp hb with hbe | hbt
        · subst hbe
          intro hcl
          apply h
          refine List.any_eq_true.mpr ⟨s, hs, ?_⟩
          simp only [Bool.and_eq_true, beq_iff_eq, decide_eq_true_eq]
          exact ⟨⟨hcl.1, hcl.2.1⟩, hcl.2.2⟩
        · exact ih _ s (List.mem_append.mpr (Or.inl hs)) b hbt

/-- Helper: the dedup output is pairwise separated — two surviving items
with the same identifier differ by at least 50px in some axis. -/
theorem dedupLoop_pairwise_far (l : List RawItem) :
    ∀ seen, List.Pairwise (fun a b => a.asin = b.asin →
      50 ≤ (a.y - b.y).natAbs ∨ 50 ≤ (a.x - b.x).natAbs) (dedupLoop l seen) := by
  induction l with
  | nil => intro seen; simp [dedupLoop]
  | cons it rest ih =>
      intro seen
      by_cases h : (seen.any fun t =>
          t.1 == it.asin && (t.2.1 - it.y).natAbs < 50 && (t.2.2 - it.x).natAbs < 50) = true
      · rw [dedupLoop, if_pos h]; exact ih seen
      · rw [dedupLoop, if_neg h]
        refine List.Pairwise.cons ?_ (ih _)
        intro b hb heq
        have hfar := dedupLoop_far_from_seen rest _ (it.asin, it.y, it.x)
          (List.mem_append.mpr (Or.inr (by simp))) b hb
        push_neg at hfar
        rcases Nat.lt_or_ge ((it.y - b.y).natAbs) 50 with hy | hy
        · exact Or.inr (hfar heq hy)
        · exact Or.inl hy

/-- Helper: the first item of the list bearing a given identifier always
survives deduplication, provided no `seen` entry carries that identifier. -/
theorem dedupLoop_keeps_first (l : List RawItem) (a : String) :
    ∀ (seen : List (String × Int × Int)) (it : RawItem),
      l.find? (fun x => x.asin == a) = some it →
      (∀ s ∈ seen, s.1 ≠ a) → it ∈ dedupLoop l seen := by
  induction l with
  | nil => intro seen it hf _; simp [List.find?] at hf
  | cons hd rest ih =>
      intro seen it hf hseen
      by_cases hhd : (hd.asin == a) = true
      · simp only [List.find?_cons, hhd] at hf
        have hit : hd = it := by simpa using hf
        subst hit
        have hcheck : ¬(seen.any fun t =>
            t.1 == hd.asin && (t.2.1 - hd.y).natAbs < 50 && (t.2.2 - hd.x).natAbs < 50) = true := by
          intro hc
          rcases List.any_eq_true.mp hc with ⟨s, hs, hsp⟩
          simp only [Bool.and_eq_true, beq_iff_eq, decide_eq_true_eq] at hsp
          exact hseen s hs (hsp.1.1.trans (beq_iff_eq.mp hhd))
        rw [dedupLoop, if_neg hcheck]
        exact List.mem_cons_self _ _
      · have hhdf : (hd.asin == a) = false := by simpa using hhd
        have hf' : rest.find? (fun x => x.asin == a) = some it := by
          simpa only [List.find?_cons, hhdf] using hf
        by_cases hc : (seen.any fun t =>
            t.1 == hd.asin && (t.2.1 - hd.y).natAbs < 50 && (t.2.2 - hd.x).natAbs < 50) = true
        · rw [dedupLoop, if_pos hc]; exact ih seen it hf' hseen
        · rw [dedupLoop, if_neg hc]
          refine List.mem_cons.mpr (Or.inr (ih _ it hf' ?_))
          intro s hs
          rcases List.mem_append.mp hs with h1 | h2
          · exact hseen s h1
          · simp only [List.mem_singleton] at h2
            subst h2
            simpa using hhd
        
/-- Helper: a dropped item always has a within-tolerance same-identifier
witness among the accepted items (or among the incoming seen entries). -/
theorem dedupLoop_dropped (l : List RawItem) :
    ∀ (seen : List (String × Int × Int)) (it : RawItem), it ∈ l → it ∉ dedupLoop l seen →
      (∃ s ∈ seen, s.1 = it.asin ∧ (s.2.1 - it.y).natAbs < 50 ∧ (s.2.2 - it.x).natAbs < 50) ∨
      (∃ b ∈ dedupLoop l seen, b.asin = it.asin ∧
        (b.y - it.y).natAbs < 50 ∧ (b.x - it.x).natAbs < 50) := by
  induction l with
  | nil => intro seen it h; simp at h
  | cons hd rest ih =>
      intro seen it hmem hnot
      by_cases hc : (seen.any fun s =>
          s.1 == hd.asin && (s.2.1 - hd.y).natAbs < 50 && (s.2.2 - hd.x).natAbs < 50) = true
      · rw [dedupLoop, if_pos hc] at hnot ⊢
        rcases List.mem_cons.mp hmem with he | ht
        · subst he
          rcases List.any_eq_true.mp hc with ⟨s, hs, hsp⟩
          simp only [Bool.and_eq_true, beq_iff_eq, decide_eq_true_eq] at hsp
          exact Or.inl ⟨s, hs, hsp.1.1, hsp.1.2, hsp.2⟩
        · exact ih seen it ht hnot
      · rw [dedupLoop, if_neg hc] at hnot ⊢
        rcases List.mem_cons.mp hmem with he | ht
        · subst he
          exact absurd (List.mem_cons_self _ _) hnot
        · have hnot' : it ∉ dedupLoop rest (seen ++ [(hd.asin, hd.y, hd.x)]) :=
            fun hin => hnot (List.mem_cons.mpr (Or.inr hin))
          rcases ih _ it ht hnot' with ⟨s, hs, hsp⟩ | ⟨b, hb, hbp⟩
          · rcases List.mem_append.mp hs with h1 | h2
            · exact Or.inl ⟨s, h1, hsp⟩
            · simp only [List.mem_singleton] at h2
              subst h2
              exact Or.inr ⟨hd, List.mem_cons_self _ _, hsp⟩
          · exact Or.inr ⟨b, List.mem_cons.mpr (Or.inr hb), hbp⟩

/-- **C7**: no two deduplication survivors with the same identifier are
within the 50px tolerance in both axes; the surviving list is an
order-preserving sublist of the input; the first-seen (topmost, since the
input is `(y, x)`-sorted) item of each identifier always survives; every
dropped item has a surviving earlier within-tolerance same-identifier
witness; and on Scenario E (`B009` at (100,100) and (105,102)) exactly the
first instance survives. -/
theorem c7_dedup_first_wins :
    (∀ l : List RawItem, List.Pairwise (fun a b => a.asin = b.asin →
      50 ≤ (a.y - b.y).natAbs ∨ 50 ≤ (a.x - b.x).natAbs) (dedupLoop l [])) ∧
    (∀ l : List RawItem, (dedupLoop l []).Sublist l) ∧
    (∀ (l : List RawItem) (a : String) (it : RawItem),
      l.find? (fun x => x.asin == a) = some it → it ∈ dedupLoop l []) ∧
    (∀ (l : List RawItem) (it : RawItem), it ∈ l → it ∉ dedupLoop l [] →
      ∃ b ∈ dedupLoop l [], b.asin = it.asin ∧
        (b.y - it.y).natAbs < 50 ∧ (b.x - it.x).natAbs < 50) ∧
    dedupLoop (sortItems [dupA, dupB]) [] = [dupA] := by
  refine ⟨fun l => dedupLoop_pairwise_far l [], fun l => dedupLoop_sublist l [],
    fun l a it hf => dedupLoop_keeps_first l a [] it hf (by simp), ?_, rfl⟩
  intro l it hmem hnot
  rcases dedupLoop_dropped l [] it hmem hnot with ⟨s, hs, _⟩ | hok
  · simp at hs
  · exact hok

/-- Witness for C7: the first-seen instance of `B009` in the sorted
Scenario E list survives deduplication. -/
theorem c7_dedup_first_wins_witness :
    dupA ∈ dedupLoop (sortItems [dupA, dupB]) [] :=
  c7_dedup_first_wins.2.2.1 (sortItems [dupA, dupB]) "B009" dupA (by decide)

/-- Helper: the final per-page position counter adds the list length to
the running counter. -/
theorem pagePositionCounter_eq : ∀ (l : List RawItem) (n : Nat),
    pagePositionCounter l n = n + l.length := by
  intro l
  induction l with
  | nil => intro n; simp [pagePositionCounter]
  | cons it rest ih =>
      intro n
      rw [pagePositionCounter, ih]
      simp [List.length_cons]
      omega

/-- Helper: every record emitted by the result loop corresponds to an
index `i` of the walked list; its overall rank is `offset + pos + i + 1`
and its organic rank, present exactly when the item is classified organic,
is `offset + org +` (the number of organic items among the first `i + 1`). -/
theorem pageLoop_mem_spec (keyword : String) (page : Nat) (targets : List String)
    (cache : List (Int × String)) (offset : Nat) :
    ∀ (u : List RawItem) (pos org : Nat) (r : RankRecord),
      r ∈ pageLoop keyword page targets cache offset u pos org →
      ∃ i itm, u.get? i = some itm ∧
        targets.contains itm.asin = true ∧
        r.keyword = keyword ∧
        r.asin = itm.asin ∧
        r.itemType = get_item_type itm cache ∧
        r.page = some page ∧
        r.rank = some (offset + pos + i + 1) ∧
        r.organicRank = (if get_item_type itm cache == "Organic"
          then some (offset + org + organicCount cache (u.take (i + 1))) else none) := by
  intro u
  induction u with
  | nil => intro pos org r hr; simp [pageLoop] at hr
  | cons it rest ih =>
      intro pos org r hr
      simp only [pageLoop] at hr
      rcases List.mem_append.mp hr with hhead | htail
      · by_cases hc : targets.contains it.asin = true
        · rw [if_pos hc] at hhead
          simp only [List.mem_singleton] at hhead
          subst hhead
          refine ⟨0, it, by simp, hc, rfl, rfl, rfl, rfl, congrArg some (by omega), ?_⟩
          simp only [List.take_succ_cons, List.take_zero, organicCount, List.countP_cons,
            List.countP_nil]
          by_cases ho : (get_item_type it cache == "Organic") = true
          · simp only [ho, if_true]
            exact congrArg some (by omega)
          · simp [ho]
        · rw [if_neg hc] at hhead
          simp at hhead
      · rcases ih (pos + 1) (if get_item_type it cache == "Organic" then org + 1 else org)
          r htail with ⟨i, itm, hget, hcont, hkw, hasin, htype, hpage, hrank, horg⟩
        refine ⟨i + 1, itm, by simpa using hget, hcont, hkw, hasin, htype, hpage, ?_, ?_⟩
        · rw [hrank]
          exact congrArg some (by omega)
        · rw [horg, List.take_succ_cons]
          simp only [organicCount, List.countP_cons]
          by_cases hi : (get_item_type itm cache == "Organic") = true
          · rw [if_pos hi, if_pos hi]
            refine congrArg some ?_
            by_cases ho : (get_item_type it cache == "Organic") = true
            · simp only [ho, if_true]
              omega
            · simp [ho]
          · rw [if_neg hi, if_neg hi]

/-- **C1 counterexample**: a two-page refactored scan whose first page has
one sponsored and one organic item (prior ORGANIC offset 1, prior overall
offset 2) and whose second page starts with the organic target: the code
emits organic cumulative rank 3 (= overall offset 2 + page organic counter
1), not 2 (= prior organic offset 1 + 1) as the claim demands. -/
theorem c1_counterexample :
    (search_keyword "kw" ["B0TARGET01"] [c1page1, c1page2]).map (fun r => r.organicRank) =
      [some 3] ∧
    organicCount c1page1.cache (uniqueItemsRefact c1page1) = 1 ∧
    (3 : Nat) ≠ 1 + 1 :=
  ⟨rfl, rfl, by decide⟩

/-- **C1 (amended)**: for every refactored-variant page scan, the emitted
overall cumulative rank equals the prior overall offset plus the per-page
overall counter, and the emitted organic cumulative rank equals that same
prior OVERALL offset plus the per-page organic counter at that point
(absent when the matched item is sponsored); after the page the single
offset grows by the page's item total. -/
theorem c1_rank_accumulator (keyword : String) (page : Nat) (targets : List String)
    (p : Page) (offset : Nat) :
    (process_page_refact keyword page targets p offset).2 =
      offset + (uniqueItemsRefact p).length ∧
    ∀ r ∈ (process_page_refact keyword page targets p offset).1,
      ∃ i itm, (uniqueItemsRefact p).get? i = some itm ∧
        targets.contains itm.asin = true ∧
        r.rank = some (offset + (i + 1)) ∧
        r.organicRank = (if get_item_type itm p.cache == "Organic"
          then some (offset + organicCount p.cache ((uniqueItemsRefact p).take (i + 1)))
          else none) ∧
        r.asin = itm.asin ∧
        r.itemType = get_item_type itm p.cache ∧
        r.page = some page := by
  constructor
  · show offset + pagePositionCounter (uniqueItemsRefact p) 0 = _
    rw [pagePositionCounter_eq]
    omega
  · intro r hr
    rcases pageLoop_mem_spec keyword page targets p.cache offset (uniqueItemsRefact p) 0 0 r hr
      with ⟨i, itm, hget, hc, _, hasin, htype, hpage, hrank, horg⟩
    refine ⟨i, itm, hget, hc, ?_, ?_, hasin, htype, hpage⟩
    · rw [hrank]
      exact congrArg some (by omega)
    · rw [horg]
      simp

/-- Witness for C1 (amended): applied to the counterexample's second page
processed with carried-in offset 2, where the emitted record is `c1rec`. -/
theorem c1_rank_accumulator_witness :
    ∃ i itm, (uniqueItemsRefact c1page2).get? i = some itm ∧
      (["B0TARGET01"].contains itm.asin = true) ∧
      c1rec.rank = some (2 + (i + 1)) ∧
      c1rec.organicRank = (if get_item_type itm c1page2.cache == "Organic"
        then some (2 + organicCount c1page2.cache ((uniqueItemsRefact c1page2).take (i + 1)))
        else none) ∧
      c1rec.asin = itm.asin ∧
      c1rec.itemType = get_item_type itm c1page2.cache ∧
      c1rec.page = some 2 :=
  (c1_rank_accumulator "kw" 2 ["B0TARGET01"] c1page2 2).2 c1rec (by decide)

/-- **C5 counterexample**: with a single target appearing twice on one
page far enough apart to survive deduplication, the refactored scan emits
TWO found records for the same (keyword, identifier) pair — the code never
checks whether an identifier already has a found record. -/
theorem c5_counterexample :
    ((search_keyword "kw" ["B0DUPL0001"] [c5page]).filter
      (fun r => r.asin == "B0DUPL0001" && r.rank.isSome)).length = 2 := rfl

/-- Helper: per-ASIN record count of the result loop — one record per
occurrence of a targeted ASIN among the walked items. -/
theorem pageLoop_count_asin (keyword : String) (page : Nat) (targets : List String)
    (cache : List (Int × String)) (offset : Nat) (a : String) :
    ∀ (u : List RawItem) (pos org : Nat),
      ((pageLoop keyword page targets cache offset u pos org).filter
        (fun r => r.asin == a)).length =
      if targets.contains a then u.countP (fun it => it.asin == a) else 0 := by
  intro u
  induction u with
  | nil =>
      intro pos org
      simp only [pageLoop, List.filter_nil, List.length_nil, List.countP_nil]
      by_cases h : targets.contains a = true <;> simp [h]
  | cons it rest ih =>
      intro pos org
      simp only [pageLoop, List.filter_append, List.length_append, List.countP_cons]
      by_cases hta : targets.contains it.asin = true
      · rw [if_pos hta]
        by_cases hit : (it.asin == a) = true
        · have heq : it.asin = a := by simpa using hit
          subst heq
          have hm : it.asin ∈ targets := by simpa using hta
          simp [ih, hta, hm, hit]
          omega
        · simp [ih, hit]
      · rw [if_neg hta]
        by_cases hit : (it.asin == a) = true
        · have heq : it.asin = a := by simpa using hit
          subst heq
          have hm : it.asin ∉ targets := by simpa using hta
          simp [ih, hta, hm, hit]
        · simp [ih, hit]

/-- **C5 (amended)**: `process_page` emits one found record per occurrence
of a targeted identifier in the page's deduplicated item list — so the
same (keyword, identifier) pair can receive several found records — and
the scan stops early exactly when the found set equals the target set:
once that happens after a page, the remaining pages contribute nothing. -/
theorem c5_found_per_occurrence :
    (∀ (keyword : String) (page : Nat) (targets : List String) (p : Page)
        (offset : Nat) (a : String),
      ((process_page_refact keyword page targets p offset).1.filter
        (fun r => r.asin == a)).length =
      (if targets.contains a then (uniqueItemsRefact p).countP (fun it => it.asin == a)
       else 0)) ∧
    (∀ (keyword : String) (targets : List String) (p : Page) (rest rest' : List Page)
        (pageNo offset : Nat) (found : List String),
      setEqStr (updateFound found
        (process_page_refact keyword pageNo targets p offset).1) targets = true →
      scanPages keyword targets (p :: rest) pageNo offset found =
        scanPages keyword targets (p :: rest') pageNo offset found) := by
  constructor
  · intro keyword page targets p offset a
    exact pageLoop_count_asin keyword page targets p.cache offset a (uniqueItemsRefact p) 0 0
  · intro keyword targets p rest rest' pageNo offset found h
    simp only [scanPages]
    rw [if_pos h, if_pos h]

/-- Witness for C5 (amended): after the single page on which the only
target is found (twice), scanning with or without a further page gives the
same scan state — the extra page is never processed. -/
theorem c5_found_per_occurrence_witness :
    scanPages "kw" ["B0DUPL0001"] [c5page, c5extra] 1 0 [] =
      scanPages "kw" ["B0DUPL0001"] [c5page] 1 0 [] :=
  c5_found_per_occurrence.2 "kw" ["B0DUPL0001"] c5page [c5extra] [] 1 0 [] (by decide)

/-- Helper: every record the result loop emits bears the ASIN of one of
the walked items. -/
theorem pageLoop_mem_asin (keyword : String) (page : Nat) (targets : List String)
    (cache : List (Int × String)) (offset : Nat) (u : List RawItem) (pos org : Nat)
    (r : RankRecord) (hr : r ∈ pageLoop keyword page targets cache offset u pos org) :
    ∃ it ∈ u, r.asin = it.asin := by
  rcases pageLoop_mem_spec keyword page targets cache offset u pos org r hr
    with ⟨i, itm, hget, _, _, hasin, _⟩
  exact ⟨itm, List.get?_mem hget, hasin⟩

/-- Helper: every record of a refactored scan bears the ASIN of an item of
some processed page's deduplicated list. -/
theorem scanPages_mem_asin (keyword : String) (targets : List String) :
    ∀ (pages : List Page) (pageNo offset : Nat) (found : List String) (r : RankRecord),
      r ∈ (scanPages keyword targets pages pageNo offset found).records →
      ∃ p ∈ pages, ∃ it ∈ uniqueItemsRefact p, r.asin = it.asin := by
  intro pages
  induction pages with
  | nil => intro pageNo offset found r hr; simp [scanPages] at hr
  | cons p rest ih =>
      intro pageNo offset found r hr
      simp only [scanPages] at hr
      by_cases h : setEqStr (updateFound found
          (process_page_refact keyword pageNo targets p offset).1) targets = true
      · rw [if_pos h] at hr
        exact ⟨p, by simp, pageLoop_mem_asin keyword pageNo targets p.cache offset
          (uniqueItemsRefact p) 0 0 r hr⟩
      · rw [if_neg h] at hr
        rcases List.mem_append.mp hr with hh | ht
        · exact ⟨p, by simp, pageLoop_mem_asin keyword pageNo targets p.cache offset
            (uniqueItemsRefact p) 0 0 r hh⟩
        · rcases ih (pageNo + 1) _ _ r ht with ⟨q, hq, hit⟩
          exact ⟨q, by simp [hq], hit⟩

/-- Helper: records whose ASINs all differ from `a` leave the found set's
membership of `a` unchanged. -/
theorem updateFound_not_mem {a : String} :
    ∀ (recs : List RankRecord) (found : List String),
      found.contains a = false → (∀ r ∈ recs, r.asin ≠ a) →
      (updateFound found recs).contains a = false := by
  intro recs
  induction recs with
  | nil => intro found hf _; simpa [updateFound] using hf
  | cons r rest ih =>
      intro found hf hall
      have hne : r.asin ≠ a := hall r (by simp)
      show (updateFound (if found.contains r.asin then found else found ++ [r.asin])
        rest).contains a = false
      refine ih _ ?_ (fun x hx => hall x (by simp [hx]))
      by_cases h : found.contains r.asin = true
      · have hm : r.asin ∈ found := by simpa using h
        simpa [hm] using hf
      · have hm : r.asin ∉ found := by simpa using h
        have hf' : a ∉ found := by simpa using hf
        have hne' : a ≠ r.asin := fun hEq => hne hEq.symm
        simp [hm, hf', hne']

/-- Helper: when `a` never occurs among the scanned pages' items, the scan
never adds `a` to the found set. -/
theorem scanPages_found_not_mem (keyword : String) (targets : List String) :
    ∀ (pages : List Page) (pageNo offset : Nat) (found : List String) (a : String),
      found.contains a = false →
      (∀ p ∈ pages, ∀ it ∈ uniqueItemsRefact p, it.asin ≠ a) →
      (scanPages keyword targets pages pageNo offset found).found.contains a = false := by
  intro pages
  induction pages with
  | nil => intro pageNo offset found a hf _; simpa [scanPages] using hf
  | cons p rest ih =>
      intro pageNo offset found a hf hnever
      have hrecs : ∀ r ∈ (process_page_refact keyword pageNo targets p offset).1, r.asin ≠ a := by
        intro r hr
        rcases pageLoop_mem_asin keyword pageNo targets p.cache offset
          (uniqueItemsRefact p) 0 0 r hr with ⟨it, hit, hasin⟩
        rw [hasin]
        exact hnever p (by simp) it hit
      have hf' := updateFound_not_mem (process_page_refact keyword pageNo targets p offset).1
        found hf hrecs
      simp only [scanPages]
      by_cases h : setEqStr (updateFound found
          (process_page_refact keyword pageNo targets p offset).1) targets = true
      · rw [if_pos h]
        exact hf'
      · rw [if_neg h]
        exact ih (pageNo + 1) _ _ a hf' (fun q hq => hnever q (by simp [hq]))

/-- **C4 counterexample**: scanning one page without the target in the
ORIGINAL variant (whose `main` has no aggregator step) emits NO record at
all — zero `not_found` records, not exactly one as the claim demands —
even though the page was fully counted (offset 1). -/
theorem c4_counterexample :
    (scanOrig "kw" ["B0NEVER001"] [c4origPage] 1 0).1 = [] ∧
    (scanOrig "kw" ["B0NEVER001"] [c4origPage] 1 0).2 = 1 :=
  ⟨rfl, rfl⟩

/-- **C4 (amended)**: for a target identifier that never appears in any
scanned page's deduplicated item list, the REFACTORED variant's
`search_keyword` emits exactly one `not_found` record for it (never zero,
never more than one), while the original variant's scan emits no record
for it at all. -/
theorem c4_not_found_records (keyword : String) (targets : List String)
    (pages : List Page) (a : String) (hnodup : targets.Nodup) (hmem : a ∈ targets)
    (hnever : ∀ p ∈ pages, ∀ it ∈ uniqueItemsRefact p, it.asin ≠ a)
    (hneverOrig : ∀ p ∈ pages, ∀ it ∈ uniqueItemsOrig p, it.asin ≠ a) :
    (search_keyword keyword targets pages).filter (fun r => r.asin == a) =
      [notFoundRecord keyword a] ∧
    (scanOrig keyword targets pages 1 0).1.filter (fun r => r.asin == a) = [] := by
  constructor
  · unfold search_keyword
    rw [List.filter_append]
    have hrecs : (scanPages keyword targets pages 1 0 []).records.filter
        (fun r => r.asin == a) = [] := by
      rw [List.filter_eq_nil_iff]
      intro r hr
      rcases scanPages_mem_asin keyword targets pages 1 0 [] r hr with ⟨p, hp, it, hit, hasin⟩
      simp only [beq_iff_eq, hasin]
      exact fun hEq => hnever p hp it hit hEq
    rw [hrecs, List.nil_append]
    have hfound : (scanPages keyword targets pages 1 0 []).found.contains a = false :=
      scanPages_found_not_mem keyword targets pages 1 0 [] a rfl hnever
    rw [List.filter_map]
    have hcomp : ((fun r : RankRecord => r.asin == a) ∘ notFoundRecord keyword) =
        fun t : String => t == a := rfl
    rw [hcomp]
    have hcount : (insertionSort strLe
        (targets.filter (fun t => !((scanPages keyword targets pages 1 0 []).found.contains t)))).count a = 1 := by
      rw [(insertionSort_perm strLe _).count_eq]
      rw [List.count_filter (by simpa using hfound)]
      exact List.count_eq_one_of_mem hnodup hmem
    rw [List.filter_beq, hcount]
    rfl
  · rw [List.filter_eq_nil_iff]
    intro r hr
    have : ∃ p ∈ pages, ∃ it ∈ uniqueItemsOrig p, r.asin = it.asin := by
      clear hnever
      revert hr
      show r ∈ (scanOrig keyword targets pages 1 0).1 → _
      generalize 1 = pageNo
      generalize 0 = offset
      revert pageNo offset
      induction pages with
      | nil => intro pageNo offset hr; simp [scanOrig] at hr
      | cons p rest ih =>
          intro pageNo offset hr
          simp only [scanOrig] at hr
          rcases List.mem_append.mp hr with hh | ht
          · exact ⟨p, by simp, pageLoop_mem_asin keyword pageNo targets p.cache offset
              (uniqueItemsOrig p) 0 0 r hh⟩
          · rcases ih (fun q hq => hneverOrig q (by simp [hq])) (pageNo + 1) _ ht
              with ⟨q, hq, hit⟩
            exact ⟨q, by simp [hq], hit⟩
    rcases this with ⟨p, hp, it, hit, hasin⟩
    simp only [beq_iff_eq, hasin]
    exact fun hEq => hneverOrig p hp it hit hEq

/-- Witness for C4 (amended), Scenario D: the target never appears on three
pages of ten organic items each; the refactored scan emits exactly the one
`not_found` row, the original scan emits nothing, and the cumulative
offset after page 3 is 30. -/
theorem c4_not_found_records_witness :
    ((search_keyword "kw" ["B0TARGET99"] pagesD).filter
      (fun r => r.asin == "B0TARGET99") = [notFoundRecord "kw" "B0TARGET99"] ∧
     (scanOrig "kw" ["B0TARGET99"] pagesD 1 0).1.filter
      (fun r => r.asin == "B0TARGET99") = []) ∧
    (scanPages "kw" ["B0TARGET99"] pagesD 1 0 []).offset = 30 ∧
    (scanOrig "kw" ["B0TARGET99"] pagesD 1 0).2 = 30 :=
  ⟨c4_not_found_records "kw" ["B0TARGET99"] pagesD "B0TARGET99" (by decide) (by decide)
      (by decide) (by decide),
    by decide, by decide⟩

/-- Helper: rank bounds of a page's records — an overall rank lies in
`(offset + pos, offset + pos + |u|]` and an organic rank lies in
`(offset + org, offset + org + |u|]`. -/
theorem pageLoop_bounds (keyword : String) (page : Nat) (targets : List String)
    (cache : List (Int × String)) (offset : Nat) (u : List RawItem) (pos org : Nat)
    (r : RankRecord) (hr : r ∈ pageLoop keyword page targets cache offset u pos org) :
    (∀ k, r.rank = some k → offset + pos < k ∧ k ≤ offset + pos + u.length) ∧
    (∀ v, r.organicRank = some v → offset + org < v ∧ v ≤ offset + org + u.length) := by
  rcases pageLoop_mem_spec keyword page targets cache offset u pos org r hr
    with ⟨i, itm, hget, _, _, _, _, _, hrank, horg⟩
  rcases List.get?_eq_some.mp hget with ⟨hi, _⟩
  constructor
  · intro k hk
    have hkeq : offset + pos + i + 1 = k := Option.some.inj (hrank.symm.trans hk)
    omega
  · intro v hv
    rw [horg] at hv
    by_cases hc : (get_item_type itm cache == "Organic") = true
    · rw [if_pos hc] at hv
      have hveq : offset + org + organicCount cache (u.take (i + 1)) = v := Option.some.inj hv
      have hone : 1 ≤ organicCount cache (u.take (i + 1)) := by
        unfold organicCount
        have hget' : u[i]? = some itm := by
          rw [← List.get?_eq_getElem?]
          exact hget
        rw [List.take_succ, hget', List.countP_append]
        simp [hc]
      have hle : organicCount cache (u.take (i + 1)) ≤ u.length := by
        unfold organicCount
        calc List.countP (fun it => get_item_type it cache == "Organic") (u.take (i + 1)) ≤
            (u.take (i + 1)).length := List.countP_le_length _
          _ ≤ u.length := by rw [List.length_take]; omega
      omega
    · rw [if_neg hc] at hv
      cases hv

/-- Helper: the records of one page are pairwise `RecOrd`-increasing. -/
theorem pageLoop_pairwise (keyword : String) (page : Nat) (targets : List String)
    (cache : List (Int × String)) (offset : Nat) :
    ∀ (u : List RawItem) (pos org : Nat),
      List.Pairwise RecOrd (pageLoop keyword page targets cache offset u pos org) := by
  intro u
  induction u with
  | nil => intro pos org; simp [pageLoop]
  | cons it rest ih =>
      intro pos org
      simp only [pageLoop]
      rw [List.pairwise_append]
      refine ⟨?_, ih _ _, ?_⟩
      · by_cases hc : targets.contains it.asin = true
        · rw [if_pos hc]
          simp
        · rw [if_neg hc]
          simp
      · intro r hr r' hr'
        by_cases hc : targets.contains it.asin = true
        · rw [if_pos hc] at hr
          simp only [List.mem_singleton] at hr
          subst hr
          have hb := pageLoop_bounds keyword page targets cache offset rest (pos + 1)
            (if get_item_type it cache == "Organic" then org + 1 else org) r' hr'
          constructor
          · intro ka kb hka hkb
            have hka' : offset + (pos + 1) = ka := Option.some.inj hka
            have := (hb.1 kb hkb).1
            omega
          · intro va vb hva hvb
            have hlow := (hb.2 vb hvb).1
            by_cases ho : (get_item_type it cache == "Organic") = true
            · simp only [ho, if_true] at hva hlow
              have hva' : offset + (org + 1) = va := Option.some.inj hva
              omega
            · simp only [ho, if_false] at hva
              cases hva
        · rw [if_neg hc] at hr
          simp at hr

/-- Helper: every record of a scan started at `offset` has both its ranks
strictly above `offset`. -/
theorem scanPages_bounds (keyword : String) (targets : List String) :
    ∀ (pages : List Page) (pageNo offset : Nat) (found : List String) (r : RankRecord),
      r ∈ (scanPages keyword targets pages pageNo offset found).records →
      (∀ k, r.rank = some k → offset < k) ∧ (∀ v, r.organicRank = some v → offset < v) := by
  intro pages
  induction pages with
  | nil => intro pageNo offset found r hr; simp [scanPages] at hr
  | cons p rest ih =>
      intro pageNo offset found r hr
      simp only [scanPages] at hr
      by_cases h : setEqStr (updateFound found
          (process_page_refact keyword pageNo targets p offset).1) targets = true
      · rw [if_pos h] at hr
        have hb := pageLoop_bounds keyword pageNo targets p.cache offset
          (uniqueItemsRefact p) 0 0 r hr
        exact ⟨fun k hk => by have := (hb.1 k hk).1; omega,
          fun v hv => by have := (hb.2 v hv).1; omega⟩
      · rw [if_neg h] at hr
        rcases List.mem_append.mp hr with hh | ht
        · have hb := pageLoop_bounds keyword pageNo targets p.cache offset
            (uniqueItemsRefact p) 0 0 r hh
          exact ⟨fun k hk => by have := (hb.1 k hk).1; omega,
            fun v hv => by have := (hb.2 v hv).1; omega⟩
        · have hoff : (process_page_refact keyword pageNo targets p offset).2 =
              offset + (uniqueItemsRefact p).length := by
            show offset + pagePositionCounter (uniqueItemsRefact p) 0 = _
            rw [pagePositionCounter_eq]
            omega
          have hb := ih (pageNo + 1) _ _ r ht
          refine ⟨fun k hk => ?_, fun v hv => ?_⟩
          · have := hb.1 k hk
            omega
          · have := hb.2 v hv
            omega

/-- Helper: the records of a whole scan are pairwise `RecOrd`-increasing:
within a page by `pageLoop_pairwise`, and across a page boundary because a
page's ranks are at most the new offset while all later ranks exceed it. -/
theorem scanPages_pairwise (keyword : String) (targets : List String) :
    ∀ (pages : List Page) (pageNo offset : Nat) (found : List String),
      List.Pairwise RecOrd (scanPages keyword targets pages pageNo offset found).records := by
  intro pages
  induction pages with
  | nil => intro pageNo offset found; simp [scanPages]
  | cons p rest ih =>
      intro pageNo offset found
      simp only [scanPages]
      by_cases h : setEqStr (updateFound found
          (process_page_refact keyword pageNo targets p offset).1) targets = true
      · rw [if_pos h]
        exact pageLoop_pairwise keyword pageNo targets p.cache offset (uniqueItemsRefact p) 0 0
      · rw [if_neg h]
        rw [List.pairwise_append]
        refine ⟨pageLoop_pairwise keyword pageNo targets p.cache offset
          (uniqueItemsRefact p) 0 0, ih _ _ _, ?_⟩
        intro r hr r' hr'
        have hbr := pageLoop_bounds keyword pageNo targets p.cache offset
          (uniqueItemsRefact p) 0 0 r hr
        have hbr' := scanPages_bounds keyword targets rest (pageNo + 1)
          (process_page_refact keyword pageNo targets p offset).2 _ r' hr'
        have hoff : (process_page_refact keyword pageNo targets p offset).2 =
            offset + (uniqueItemsRefact p).length := by
          show offset + pagePositionCounter (uniqueItemsRefact p) 0 = _
          rw [pagePositionCounter_eq]
          omega
        constructor
        · intro ka kb hka hkb
          have h1 := (hbr.1 ka hka).2
          have h2 := hbr'.1 kb hkb
          omega
        · intro va vb hva hvb
          have h1 := (hbr.2 va hva).2
          have h2 := hbr'.2 vb hvb
          omega

/-- **C3**: for a single keyword scanned across any page sequence, the
overall cumulative ranks of the emitted records, in emission (= encounter)
order, are strictly increasing and never reset at page boundaries, and the
organic cumulative ranks, restricted to the records that carry one (the
organic-classified matches), are also strictly increasing. -/
theorem c3_rank_monotonic (keyword : String) (targets : List String) (pages : List Page) :
    List.Pairwise (· < ·)
      ((search_keyword keyword targets pages).filterMap (fun r => r.rank)) ∧
    List.Pairwise (· < ·)
      ((search_keyword keyword targets pages).filterMap (fun r => r.organicRank)) := by
  have hscan := scanPages_pairwise keyword targets pages 1 0 []
  unfold search_keyword
  constructor
  · rw [List.filterMap_append]
    have hnf : (((insertionSort strLe (targets.filter (fun a =>
        !((scanPages keyword targets pages 1 0 []).found.contains a)))).map
          (notFoundRecord keyword)).filterMap (fun r => r.rank)) = [] := by
      rw [List.filterMap_map]
      exact List.filterMap_eq_nil_iff.mpr (fun a _ => rfl)
    rw [hnf, List.append_nil]
    rw [List.pairwise_filterMap]
    refine hscan.imp ?_
    intro r r' hrel b hb b' hb'
    exact hrel.1 b b' (Option.mem_def.mp hb) (Option.mem_def.mp hb')
  · rw [List.filterMap_append]
    have hnf : (((insertionSort strLe (targets.filter (fun a =>
        !((scanPages keyword targets pages 1 0 []).found.contains a)))).map
          (notFoundRecord keyword)).filterMap (fun r => r.organicRank)) = [] := by
      rw [List.filterMap_map]
      exact List.filterMap_eq_nil_iff.mpr (fun a _ => rfl)
    rw [hnf, List.append_nil]
    rw [List.pairwise_filterMap]
    refine hscan.imp ?_
    intro r r' hrel b hb b' hb'
    exact hrel.2 b b' (Option.mem_def.mp hb) (Option.mem_def.mp hb')
